import Mathlib

/-!
Verification of the long-way trip-planning application's persistence core.

The development shallowly embeds the storage adapter (`sqlite.ts`,
`postgres.ts`), the repository layer (`lib/db/index.ts`, both the
re-querying and the constructed-object variants), the coordinate
validation helper (`lib/validation.ts` / `db/types.ts`), the settings
route (`app/api/settings/route.ts`) and the assistant chat loop
(`app/api/trips/[id]/chat/route.ts`) as pure Lean functions over an
explicit database state, and proves the specification's claims about
them.

Modelling conventions:
- SQL statements are represented by their semantics on an explicit
  `DbState` (lists of rows); `WHERE` clauses become filters, `UPDATE`
  becomes a map over rows, `INSERT` appends.
- JavaScript `undefined` is `Option.none`; a `string | null` column is
  `Option String`; the JS falsy coalescing `x || null` and the nullish
  coalescing `x ?? y` are modelled by explicit helpers.
- JS strings in the settings route are modelled as `List Char`
  (sequences of code units), so that `slice` becomes `take`/`drop`.
- Coordinates are modelled as `ℚ`; the `typeof`/`isFinite` guards of
  `validateCoordinates` are satisfied by construction for `ℚ` inputs,
  and the comparisons against the literal bounds agree with the IEEE
  comparisons performed by the source on these values.
-/

/-! ### Storage engine and the adapter transaction combinator

Models `SqliteAdapter.transaction` and `PostgresAdapter.transaction`,
which share the same shape: `BEGIN`, run the work function (which issues
statements through the transaction handle and may fail at any point,
including a deliberately raised error), then `COMMIT`; on failure
`ROLLBACK` and re-raise the original error. -/

/-- A database engine holds a committed state and, while a transaction
is open, a working state that statements operate on. `BEGIN` snapshots
the committed state, `COMMIT` makes the working state durable,
`ROLLBACK` discards it. -/
structure Engine (σ : Type) where
  committed : σ
  working : Option σ
deriving Repr, DecidableEq

/-- A statement issued through the adapter: it either transforms the
state or fails with an error. A work function that deliberately raises
an error is modelled by a statement `fun _ => .error e`. -/
def Stmt (σ ε : Type) : Type := σ → Except ε σ

/-- Execute one statement against the engine: inside an open transaction
it acts on the working state, otherwise directly on the committed
state (autocommit). -/
def execStmt {σ ε : Type} (e : Engine σ) (s : Stmt σ ε) : Except ε (Engine σ) :=
  match e.working with
  | some w => (s w).map fun w' => { e with working := some w' }
  | none => (s e.committed).map fun c' => { e with committed := c' }

/-- The `BEGIN` statement issued by the adapter's `transaction`. -/
def beginTx {σ : Type} (e : Engine σ) : Engine σ :=
  { e with working := some e.committed }

/-- The `COMMIT` statement issued on success. -/
def commitTx {σ : Type} (e : Engine σ) : Engine σ :=
  match e.working with
  | some w => { committed := w, working := none }
  | none => e

/-- The `ROLLBACK` statement issued from the `catch` branch. -/
def rollbackTx {σ : Type} (e : Engine σ) : Engine σ :=
  { e with working := none }

/-- Run the statements a work function issues, in order, stopping at the
first failure; returns the engine at the stopping point together with
the error, if any. -/
def runStmts {σ ε : Type} : List (Stmt σ ε) → Engine σ → Engine σ × Option ε
  | [], e => (e, none)
  | s :: rest, e =>
    match execStmt e s with
    | .ok e' => runStmts rest e'
    | .error err => (e, some err)

/-- The adapter `transaction` combinator of `SqliteAdapter` and
`PostgresAdapter`: `BEGIN`, run the work, `COMMIT` on success;
`ROLLBACK` and re-raise the original error on failure. -/
def transactionRun {σ ε : Type} (work : List (Stmt σ ε)) (e : Engine σ) :
    Engine σ × Except ε Unit :=
  let e1 := beginTx e
  match runStmts work e1 with
  | (e2, none) => (commitTx e2, .ok ())
  | (e2, some err) => (rollbackTx e2, .error err)

theorem execStmt_committed {σ ε : Type} (e : Engine σ) (s : Stmt σ ε) (e' : Engine σ)
    (hw : e.working.isSome) (h : execStmt e s = .ok e') :
    e'.committed = e.committed ∧ e'.working.isSome := by
  cases hw' : e.working with
  | none => rw [hw'] at hw; simp at hw
  | some w =>
    simp only [execStmt, hw'] at h
    cases hs : s w with
    | ok w' =>
      rw [hs] at h
      simp only [Except.map] at h
      cases h
      simp
    | error err =>
      rw [hs] at h
      simp [Except.map] at h

theorem runStmts_committed {σ ε : Type} (work : List (Stmt σ ε)) (e : Engine σ)
    (hw : e.working.isSome) :
    (runStmts work e).1.committed = e.committed ∧ (runStmts work e).1.working.isSome := by
  induction work generalizing e with
  | nil => simp [runStmts, hw]
  | cons s rest ih =>
    simp only [runStmts]
    cases hs : execStmt e s with
    | ok e' =>
      obtain ⟨h1, h2⟩ := execStmt_committed e s e' hw hs
      exact ⟨((ih e' h2).1).trans h1, (ih e' h2).2⟩
    | error err => simpa using hw

/-- When all statements succeed, the transaction commits the working
state obtained by running them in sequence. -/
theorem transactionRun_ok {σ ε : Type} (work : List (Stmt σ ε)) (e : Engine σ)
    (h : (runStmts work (beginTx e)).2 = none) :
    transactionRun work e =
      ((commitTx (runStmts work (beginTx e)).1), .ok ()) := by
  simp only [transactionRun]
  cases hr : runStmts work (beginTx e) with
  | mk e2 res =>
    rw [hr] at h
    simp only at h
    subst h
    simp

/-- C2. For every work function (list of issued statements, any of which
may fail — including a deliberately raised error) and every starting
engine state, if the work fails then the adapter's `transaction`
operation re-raises the original error unchanged and leaves the
committed state exactly as it was before the transaction began, with no
open transaction, so no statement's effect is observable afterward.
This models both `SqliteAdapter.transaction` and
`PostgresAdapter.transaction`, which have the identical
`BEGIN`/work/`COMMIT`/catch-`ROLLBACK`-rethrow structure. -/
theorem claim2_transaction_rollback {σ ε : Type} (work : List (Stmt σ ε))
    (e : Engine σ) (err : ε)
    (hfail : (runStmts work (beginTx e)).2 = some err) :
    (transactionRun work e).2 = .error err ∧
    (transactionRun work e).1 = { committed := e.committed, working := none } := by
  have hcp : (runStmts work (beginTx e)).1.committed = e.committed ∧
      (runStmts work (beginTx e)).1.working.isSome :=
    runStmts_committed work (beginTx e) (by simp [beginTx])
  simp only [transactionRun]
  cases hr : runStmts work (beginTx e) with
  | mk e2 res =>
    rw [hr] at hfail hcp
    simp only at hfail hcp
    subst hfail
    refine ⟨rfl, ?_⟩
    simp only [rollbackTx]
    rw [hcp.1]

/-- Witness for C2: a two-statement work function over `ℤ` whose second
statement fails; the transaction reports the original error and the
committed value 0 is unchanged even though the first statement
incremented it. -/
theorem claim2_witness :
    (transactionRun [fun n => .ok (n + 1), fun _ => .error "boom"]
      (⟨(0 : ℤ), none⟩ : Engine ℤ)).2 = .error "boom" ∧
    (transactionRun [fun n => .ok (n + 1), fun _ => .error "boom"]
      (⟨(0 : ℤ), none⟩ : Engine ℤ)).1 = ⟨0, none⟩ :=
  claim2_transaction_rollback
    [fun n => .ok (n + 1), fun _ => .error "boom"] ⟨0, none⟩ "boom" rfl

/-! ### Data model (`lib/schemas.ts` / `lib/db/types.ts`)

`Trip` rows, `stops` rows as stored (`StopRow`: `is_optional` as the
0/1 integer the database holds, `tags`/`links` as the stored lists —
JSON serialisation of string lists is abstracted as the identity round
trip), and the domain `Stop` produced by `rowToStop`. -/

structure Trip where
  id : String
  name : String
  description : Option String
  created_at : String
  updated_at : String
deriving Repr, DecidableEq, Inhabited

structure StopRow where
  id : String
  trip_id : String
  name : String
  type : String
  description : Option String
  latitude : ℚ
  longitude : ℚ
  duration_value : Option Int
  duration_unit : Option String
  is_optional : Int
  tags : List String
  links : List String
  notes : Option String
  order : Int
  transport_type : Option String
  departure_time : Option String
  arrival_time : Option String
  departure_location : Option String
  arrival_location : Option String
deriving Repr, DecidableEq, Inhabited

structure Stop where
  id : String
  trip_id : String
  name : String
  type : String
  description : Option String
  latitude : ℚ
  longitude : ℚ
  duration_value : Option Int
  duration_unit : Option String
  is_optional : Bool
  tags : List String
  links : List String
  notes : Option String
  order : Int
  transport_type : Option String
  departure_time : Option String
  arrival_time : Option String
  departure_location : Option String
  arrival_location : Option String
deriving Repr, DecidableEq, Inhabited

/-- Conversion of a stored row to the domain object (`rowToStop` in
`lib/schemas.ts`): `Boolean(row.is_optional)` becomes a 0/1 test; the
JSON parse of `tags`/`links` is the identity under the list model. -/
def rowToStop (r : StopRow) : Stop :=
  { id := r.id, trip_id := r.trip_id, name := r.name, type := r.type,
    description := r.description, latitude := r.latitude, longitude := r.longitude,
    duration_value := r.duration_value, duration_unit := r.duration_unit,
    is_optional := r.is_optional != 0,
    tags := r.tags, links := r.links, notes := r.notes, order := r.order,
    transport_type := r.transport_type, departure_time := r.departure_time,
    arrival_time := r.arrival_time, departure_location := r.departure_location,
    arrival_location := r.arrival_location }

/-- Fields of a `createStop(tripId, data)` request; `Option` is JS
`undefined` (field absent). -/
structure CreateStopRequest where
  name : String
  type : String
  description : Option String
  latitude : ℚ
  longitude : ℚ
  duration_value : Option Int
  duration_unit : Option String
  is_optional : Option Bool
  tags : Option (List String)
  links : Option (List String)
  notes : Option String
  order : Option Int
  transport_type : Option String
  departure_time : Option String
  arrival_time : Option String
  departure_location : Option String
  arrival_location : Option String
deriving Repr, DecidableEq, Inhabited

/-- Fields of an `updateStop(id, updates)` request; every field is
optional, `none` meaning the field was not supplied. -/
structure UpdateStopRequest where
  name : Option String
  type : Option String
  description : Option String
  latitude : Option ℚ
  longitude : Option ℚ
  duration_value : Option Int
  duration_unit : Option String
  is_optional : Option Bool
  tags : Option (List String)
  links : Option (List String)
  notes : Option String
  order : Option Int
  transport_type : Option String
  departure_time : Option String
  arrival_time : Option String
  departure_location : Option String
  arrival_location : Option String
deriving Repr, DecidableEq, Inhabited

/-- Fields of an `updateTrip(id, updates)` request. `description` has
type `string | null | undefined` in the source: the outer `Option` is
presence (`undefined` when absent), the inner `Option` is nullability
(`none` for an explicit JS `null`). -/
structure UpdateTripRequest where
  name : Option String
  description : Option (Option String)
deriving Repr, DecidableEq, Inhabited

/-- Database state: the `trips` and `stops` tables (the `conversations`
and `settings` tables are not needed by the claims about this layer). -/
structure DbState where
  trips : List Trip
  stops : List StopRow
deriving Repr, DecidableEq, Inhabited

/-- JS falsy coalescing `x || null` on a `string | undefined` value:
both `undefined` and the empty string collapse to `null`. -/
def orNullStr (x : Option String) : Option String :=
  match x with
  | some s => if s = "" then none else some s
  | none => none

/-- JS nullish coalescing `u ?? old` for a `string | null | undefined`
update against a nullable stored value: only a present non-null string
replaces the stored value; both `undefined` and an explicit `null` fall
back to `old`. -/
def nullishDesc (u : Option (Option String)) (old : Option String) : Option String :=
  match u with
  | some (some s) => some s
  | _ => old

/-- Update semantics for a nullable column set only when the field is
supplied (`if (updates.f !== undefined) fields.push(...)`). -/
def updOpt {α : Type} (u : Option α) (old : Option α) : Option α :=
  match u with
  | some v => some v
  | none => old

/-! ### Repository layer (`lib/db/index.ts`) -/

/-- Read model of `SELECT * FROM trips WHERE id = $1` (`getTripById`). -/
def getTripById (db : DbState) (id : String) : Option Trip :=
  db.trips.find? (fun t => t.id == id)

/-- Sort model of `ORDER BY "order"` (ascending, stable). -/
def sortedByOrder (l : List StopRow) : List StopRow :=
  l.mergeSort (fun a b => decide (a.order ≤ b.order))

/-- Read model of `getStopsByTripId`: `SELECT * FROM stops WHERE
trip_id = $1 ORDER BY "order"`, then `rows.map(rowToStop)`. -/
def getStopsByTripId (db : DbState) (tripId : String) : List Stop :=
  (sortedByOrder (db.stops.filter (fun s => s.trip_id == tripId))).map rowToStop

/-- Read model of `getStopById`. -/
def getStopById (db : DbState) (id : String) : Option Stop :=
  (db.stops.find? (fun s => s.id == id)).map rowToStop

/-- SQL `MAX` over a column: `NULL` on an empty selection. -/
def listMaxInt : List Int → Option Int
  | [] => none
  | x :: xs => some (xs.foldl max x)

/-- The `"order"` values of one trip's stops. -/
def tripOrders (db : DbState) (tripId : String) : List Int :=
  (db.stops.filter (fun s => s.trip_id == tripId)).map (·.order)

/-- Model of `getNextOrder`: `(MAX("order") ?? -1) + 1` over the trip's
stops. -/
def getNextOrder (db : DbState) (tripId : String) : Int :=
  (listMaxInt (tripOrders db tripId)).getD (-1) + 1

/-- Statement model of `UPDATE trips SET updated_at = $1 WHERE id = $2`,
the parent-trip timestamp refresh issued by every stop mutation. -/
def touchTrip (tripId now : String) (db : DbState) : DbState :=
  { db with trips := db.trips.map fun t =>
      if t.id == tripId then { t with updated_at := now } else t }

/-- Statement model of the 19-column `INSERT INTO stops`. -/
def insertStopRow (row : StopRow) (db : DbState) : DbState :=
  { db with stops := db.stops ++ [row] }

/-- An infallible statement issued through a transaction handle. -/
def stmtOk (f : DbState → DbState) : Stmt DbState String :=
  fun db => .ok (f db)

/-- The row written by `createStop`'s insert, with the JS defaulting of
the source parameter list: `description || null`, `duration_value ??
null`, `is_optional ? 1 : 0`, `tags || []`, `notes || null`, and so on. -/
def buildStopRow (id tripId : String) (data : CreateStopRequest) (ord : Int) : StopRow :=
  { id := id, trip_id := tripId, name := data.name, type := data.type,
    description := orNullStr data.description,
    latitude := data.latitude, longitude := data.longitude,
    duration_value := data.duration_value, duration_unit := data.duration_unit,
    is_optional := if data.is_optional.getD false then 1 else 0,
    tags := data.tags.getD [], links := data.links.getD [],
    notes := orNullStr data.notes, order := ord,
    transport_type := orNullStr data.transport_type,
    departure_time := orNullStr data.departure_time,
    arrival_time := orNullStr data.arrival_time,
    departure_location := orNullStr data.departure_location,
    arrival_location := orNullStr data.arrival_location }

/-- The two statements `createStop` issues inside `adapter.transaction`:
the stop insert, then the parent trip's `updated_at` refresh. -/
def createStopWork (row : StopRow) (tripId now : String) : List (Stmt DbState String) :=
  [stmtOk (insertStopRow row), stmtOk (touchTrip tripId now)]

/-- Model of `createStop` in its re-querying variant (`lib/db/index.ts`
lines 111-155): compute the order (`data.order ?? getNextOrder`), run
the insert and the trip touch in one transaction, then read the stop
back; `none` models the `Failed to create stop` throw. -/
def createStop1 (db : DbState) (id tripId : String) (data : CreateStopRequest)
    (now : String) : DbState × Option Stop :=
  let ord := data.order.getD (getNextOrder db tripId)
  let row := buildStopRow id tripId data ord
  let db' := (transactionRun (createStopWork row tripId now)
    (⟨db, none⟩ : Engine DbState)).1.committed
  (db', getStopById db' id)

/-- The object the constructed-object variant of `createStop` returns
without re-querying (`lib/db/index.ts` lines 545-566). -/
def constructedStop (id tripId : String) (data : CreateStopRequest) (ord : Int) : Stop :=
  { id := id, trip_id := tripId, name := data.name, type := data.type,
    description := orNullStr data.description,
    latitude := data.latitude, longitude := data.longitude,
    duration_value := data.duration_value, duration_unit := data.duration_unit,
    is_optional := data.is_optional.getD false,
    tags := data.tags.getD [], links := data.links.getD [],
    notes := orNullStr data.notes, order := ord,
    transport_type := orNullStr data.transport_type,
    departure_time := orNullStr data.departure_time,
    arrival_time := orNullStr data.arrival_time,
    departure_location := orNullStr data.departure_location,
    arrival_location := orNullStr data.arrival_location }

/-- Model of `createStop` in its constructed-object variant
(`lib/db/index.ts` lines 504-567): same statements, but the returned
stop is built from the known inputs instead of being read back. -/
def createStop2 (db : DbState) (id tripId : String) (data : CreateStopRequest)
    (now : String) : DbState × Stop :=
  let ord := data.order.getD (getNextOrder db tripId)
  let row := buildStopRow id tripId data ord
  let db' := (transactionRun (createStopWork row tripId now)
    (⟨db, none⟩ : Engine DbState)).1.committed
  (db', constructedStop id tripId data ord)

/-- Model of `createTrip` in its re-querying variant: insert the row,
then read it back. -/
def createTrip1 (db : DbState) (id name : String) (desc : Option String)
    (now : String) : DbState × Option Trip :=
  let row : Trip :=
    { id := id, name := name, description := orNullStr desc,
      created_at := now, updated_at := now }
  let db' := { db with trips := db.trips ++ [row] }
  (db', getTripById db' id)

/-- Model of `createTrip` in its constructed-object variant: the same
insert, returning the constructed object instead of re-querying. -/
def createTrip2 (db : DbState) (id name : String) (desc : Option String)
    (now : String) : DbState × Trip :=
  let row : Trip :=
    { id := id, name := name, description := orNullStr desc,
      created_at := now, updated_at := now }
  let db' := { db with trips := db.trips ++ [row] }
  (db', row)

/-- Statement model of `UPDATE trips SET name = $1, description = $2,
updated_at = $3 WHERE id = $4`. -/
def updateTripRows (id name : String) (description : Option String) (now : String)
    (db : DbState) : DbState :=
  { db with trips := db.trips.map fun t =>
      if t.id == id then
        { t with name := name, description := description, updated_at := now }
      else t }

/-- Model of `updateTrip` in its re-querying variant (`lib/db/index.ts`
lines 51-71): `name = updates.name ?? trip.name`, `description =
updates.description ?? trip.description` (nullish coalescing, so an
explicit `null` also falls back), update, read back. -/
def updateTrip1 (db : DbState) (id : String) (u : UpdateTripRequest)
    (now : String) : DbState × Option Trip :=
  match getTripById db id with
  | none => (db, none)
  | some trip =>
    let name := u.name.getD trip.name
    let description := nullishDesc u.description trip.description
    let db' := updateTripRows id name description now db
    (db', getTripById db' id)

/-- Model of `updateTrip` in its constructed-object variant
(`lib/db/index.ts` lines 438-464): same statement, returning
`{...trip, name, description, updated_at: now}`. -/
def updateTrip2 (db : DbState) (id : String) (u : UpdateTripRequest)
    (now : String) : DbState × Option Trip :=
  match getTripById db id with
  | none => (db, none)
  | some trip =>
    let name := u.name.getD trip.name
    let description := nullishDesc u.description trip.description
    let db' := updateTripRows id name description now db
    (db', some { trip with name := name, description := description, updated_at := now })

/-- Net row effect of the dynamic `UPDATE stops SET ...` statement that
`updateStop` assembles: each column is set exactly when the
corresponding request field is supplied (`!== undefined`), with
`is_optional` stored as `updates.is_optional ? 1 : 0` and `tags`/`links`
stored through the (identity-modelled) JSON round trip. -/
def applyUpdatesRow (u : UpdateStopRequest) (r : StopRow) : StopRow :=
  { r with
    name := u.name.getD r.name,
    type := u.type.getD r.type,
    description := updOpt u.description r.description,
    latitude := u.latitude.getD r.latitude,
    longitude := u.longitude.getD r.longitude,
    duration_value := updOpt u.duration_value r.duration_value,
    duration_unit := updOpt u.duration_unit r.duration_unit,
    is_optional := (u.is_optional.map fun b => if b then (1 : Int) else 0).getD r.is_optional,
    tags := u.tags.getD r.tags,
    links := u.links.getD r.links,
    notes := updOpt u.notes r.notes,
    order := u.order.getD r.order,
    transport_type := updOpt u.transport_type r.transport_type,
    departure_time := updOpt u.departure_time r.departure_time,
    arrival_time := updOpt u.arrival_time r.arrival_time,
    departure_location := updOpt u.departure_location r.departure_location,
    arrival_location := updOpt u.arrival_location r.arrival_location }

/-- The `updatedStop` object the constructed-object variant of
`updateStop` builds field by field while assembling the statement. -/
def applyUpdatesStop (u : UpdateStopRequest) (s : Stop) : Stop :=
  { s with
    name := u.name.getD s.name,
    type := u.type.getD s.type,
    description := updOpt u.description s.description,
    latitude := u.latitude.getD s.latitude,
    longitude := u.longitude.getD s.longitude,
    duration_value := updOpt u.duration_value s.duration_value,
    duration_unit := updOpt u.duration_unit s.duration_unit,
    is_optional := u.is_optional.getD s.is_optional,
    tags := u.tags.getD s.tags,
    links := u.links.getD s.links,
    notes := updOpt u.notes s.notes,
    order := u.order.getD s.order,
    transport_type := updOpt u.transport_type s.transport_type,
    departure_time := updOpt u.departure_time s.departure_time,
    arrival_time := updOpt u.arrival_time s.arrival_time,
    departure_location := updOpt u.departure_location s.departure_location,
    arrival_location := updOpt u.arrival_location s.arrival_location }

/-- Test for `fields.length === 0`: no request field was supplied. -/
def isEmptyUpdate (u : UpdateStopRequest) : Bool :=
  u.name.isNone && u.type.isNone && u.description.isNone &&
  u.latitude.isNone && u.longitude.isNone && u.duration_value.isNone &&
  u.duration_unit.isNone && u.is_optional.isNone && u.tags.isNone &&
  u.links.isNone && u.notes.isNone && u.order.isNone &&
  u.transport_type.isNone && u.departure_time.isNone && u.arrival_time.isNone &&
  u.departure_location.isNone && u.arrival_location.isNone

/-- Statement model of the assembled `UPDATE stops SET ... WHERE id =
$n`. -/
def updateStopRows (id : String) (u : UpdateStopRequest) (db : DbState) : DbState :=
  { db with stops := db.stops.map fun r =>
      if r.id == id then applyUpdatesRow u r else r }

/-- Model of `updateStop` in its re-querying variant (`lib/db/index.ts`
lines 157-250): `null` when the stop does not exist; the unchanged stop
when no field is supplied; otherwise the row update plus the parent
trip's `updated_at` refresh in one transaction, then a re-read. -/
def updateStop1 (db : DbState) (id : String) (u : UpdateStopRequest)
    (now : String) : DbState × Option Stop :=
  match getStopById db id with
  | none => (db, none)
  | some stop =>
    if isEmptyUpdate u then (db, some stop)
    else
      let db' := (transactionRun
        [stmtOk (updateStopRows id u), stmtOk (touchTrip stop.trip_id now)]
        (⟨db, none⟩ : Engine DbState)).1.committed
      (db', getStopById db' id)

/-- Model of `updateStop` in its constructed-object variant
(`lib/db/index.ts` lines 569-682): same statements, returning the
`updatedStop` built while assembling them. -/
def updateStop2 (db : DbState) (id : String) (u : UpdateStopRequest)
    (now : String) : DbState × Option Stop :=
  match getStopById db id with
  | none => (db, none)
  | some stop =>
    if isEmptyUpdate u then (db, some stop)
    else
      let db' := (transactionRun
        [stmtOk (updateStopRows id u), stmtOk (touchTrip stop.trip_id now)]
        (⟨db, none⟩ : Engine DbState)).1.committed
      (db', some (applyUpdatesStop u stop))

/-- The body of `reorderStops`' for loop: for index `i` and id
`stopIds[i]`, `UPDATE stops SET "order" = $1 WHERE id = $2 AND trip_id
= $3`, executed sequentially for `i = n, n+1, ...`. -/
def applyOrderUpdates (tripId : String) : Nat → List String → List StopRow → List StopRow
  | _, [], stops => stops
  | n, sid :: rest, stops =>
    applyOrderUpdates tripId (n + 1) rest
      (stops.map fun s =>
        if s.id = sid ∧ s.trip_id = tripId then { s with order := (n : Int) } else s)

/-- Model of `reorderStops(tripId, stopIds)`: the per-id order updates
followed by the trip's `updated_at` refresh (all statements are
infallible here, so the committed transaction effect is their
sequential application), and the unconditional `return true`. -/
def reorderStops (db : DbState) (tripId : String) (stopIds : List String)
    (now : String) : DbState × Bool :=
  let db1 := { db with stops := applyOrderUpdates tripId 0 stopIds db.stops }
  let db2 := touchTrip tripId now db1
  (db2, true)

/-! ### Coordinate validation (`lib/validation.ts`, `validateCoordinates`)

The `typeof lat !== 'number'` and `!isFinite(lat)` guards are satisfied
by construction for `ℚ` inputs; the range checks are translated
directly. -/

/-- A field-level validation failure, carrying the offending field name
and a human-readable message. -/
structure ValidationError where
  field : String
  message : String
deriving Repr, DecidableEq

/-- Model of `validateCoordinates(lat, lng)`: `lat < -90 || lat > 90`
rejects the latitude, then `lng < -180 || lng > 180` rejects the
longitude; `none` is acceptance. -/
def validateCoordinates (lat lng : ℚ) : Option ValidationError :=
  if lat < -90 ∨ lat > 90 then
    some { field := "latitude", message := "Latitude must be between -90 and 90" }
  else if lng < -180 ∨ lng > 180 then
    some { field := "longitude", message := "Longitude must be between -180 and 180" }
  else
    none

/-! ### Settings route (`app/api/settings/route.ts`)

JS strings are modelled as `List Char`, so `key.slice(0, 7)` is
`key.take 7`, `key.slice(-4)` is `key.drop (key.length - 4)`, and
`apiKey.startsWith('sk-ant-')` is `key.take 7 = "sk-ant-".toList`.
The store holds the value of the single `anthropic_api_key` setting. -/

/-- Model of `maskApiKey`: `'***'` for keys of at most 15 characters
(where first-7 + last-4 could reveal most or all of the key), otherwise
the first seven characters, an ellipsis, and the last four. -/
def maskApiKey (key : List Char) : List Char :=
  if key.length ≤ 15 then "***".toList
  else key.take 7 ++ "...".toList ++ key.drop (key.length - 4)

/-- The JSON body of the settings `GET` response: a presence flag and
the masked preview; these are its only fields. -/
structure SettingsGetResponse where
  hasApiKey : Bool
  keyPreview : Option (List Char)
deriving Repr, DecidableEq

/-- Model of the settings `GET` handler: `hasApiKey: !!apiKey`,
`keyPreview: apiKey ? maskApiKey(apiKey) : null` (JS truthiness: both a
missing row and an empty stored value are falsy). -/
def settingsGET (stored : Option (List Char)) : SettingsGetResponse :=
  match stored with
  | none => { hasApiKey := false, keyPreview := none }
  | some k =>
    if k = [] then { hasApiKey := false, keyPreview := none }
    else { hasApiKey := true, keyPreview := some (maskApiKey k) }

/-- Model of the settings `POST` write path for a supplied (trimmed)
`apiKey` value: reject keys longer than 200 characters, delete the
setting on an empty value, store the value when it starts with
`sk-ant-`, reject otherwise. Returns the new store and the success
flag. -/
def settingsPOST (stored : Option (List Char)) (k : List Char) :
    Option (List Char) × Bool :=
  if 200 < k.length then (stored, false)
  else if k = [] then (none, true)
  else if k.take 7 = "sk-ant-".toList then (some k, true)
  else (stored, false)

/-! ### Assistant chat loop (`app/api/trips/[id]/chat/route.ts`)

Only the loop's control state is modelled: the content blocks of each
model response, the running `finalResponse` text, and the message
history (whose entries' payloads are irrelevant to control flow, so a
history entry is just its role). Tool execution mutates the database
but never the loop control, so it is not represented. The unbounded
sequence of model responses is a function from the call index. -/

/-- A content block of a model response: a text block or a tool-use
block (its name/input do not influence the loop control). -/
inductive ContentBlock where
  | text (t : String)
  | toolUse
deriving Repr, DecidableEq

/-- One entry of the `claudeMessages` history; only its presence (for
the length cap) matters to control flow. -/
inductive ChatTurn where
  | user
  | assistant
deriving Repr, DecidableEq

/-- The per-response block scan: `finalResponse = block.text` for each
text block (the last one wins), `hasToolUse = true` if any tool-use
block occurs. The accumulator is `(finalResponse, hasToolUse)`. -/
def processBlocks (blocks : List ContentBlock) (fr : String) : String × Bool :=
  blocks.foldl
    (fun acc b =>
      match b with
      | .text t => (t, acc.2)
      | .toolUse => (acc.1, true))
    (fr, false)

/-- The text blocks of a response, in order. -/
def textsOf (blocks : List ContentBlock) : List String :=
  blocks.filterMap fun b =>
    match b with
    | .text t => some t
    | .toolUse => none

/-- Whether a response contains a tool-use block. -/
def hasToolUseIn (blocks : List ContentBlock) : Bool :=
  blocks.any fun b =>
    match b with
    | .text _ => false
    | .toolUse => true

/-- Model of the chat route's `while (continueLoop)` loop: call the
model (`responses k` is the response to the `k`-th call), scan the
blocks; with a tool use, append the assistant turn and the synthetic
tool-results user turn and continue unless the history now exceeds 20
messages; without one, stop with the scanned `finalResponse`. -/
def chatLoop (responses : Nat → List ContentBlock) (k : Nat)
    (messages : List ChatTurn) (fr : String) : String :=
  let scanned := processBlocks (responses k) fr
  if scanned.2 then
    if (messages ++ [ChatTurn.assistant, ChatTurn.user]).length > 20 then scanned.1
    else chatLoop responses (k + 1) (messages ++ [ChatTurn.assistant, ChatTurn.user]) scanned.1
  else scanned.1
termination_by 21 - messages.length
decreasing_by
  simp only [List.length_append, List.length_cons, List.length_nil] at *
  omega

/-- Fuel-bounded variant of `chatLoop`, used to state that the loop
terminates within a bounded number of model calls: `none` means the
fuel ran out before the loop exited. -/
def chatLoopFuel (fuel : Nat) (responses : Nat → List ContentBlock) (k : Nat)
    (messages : List ChatTurn) (fr : String) : Option String :=
  match fuel with
  | 0 => none
  | fuel' + 1 =>
    let scanned := processBlocks (responses k) fr
    if scanned.2 then
      let messages' := messages ++ [ChatTurn.assistant, ChatTurn.user]
      if messages'.length > 20 then some scanned.1
      else chatLoopFuel fuel' responses (k + 1) messages' scanned.1
    else some scanned.1

/-! ### Claim C8: coordinate validation boundaries -/

/-- C8. Coordinate validation accepts latitude exactly -90 and exactly
90 and longitude exactly -180 and exactly 180, and rejects latitude
90.0001 and longitude -180.0001 with a field-level validation failure
(the bounds are inclusive). -/
theorem claim8_coordinate_bounds :
    validateCoordinates (-90) 0 = none ∧
    validateCoordinates 90 0 = none ∧
    validateCoordinates 0 (-180) = none ∧
    validateCoordinates 0 180 = none ∧
    validateCoordinates 90.0001 0 =
      some { field := "latitude", message := "Latitude must be between -90 and 90" } ∧
    validateCoordinates 0 (-180.0001) =
      some { field := "longitude", message := "Longitude must be between -180 and 180" } := by
  refine ⟨?_, ?_, ?_, ?_, ?_, ?_⟩ <;> norm_num [validateCoordinates]

/-! ### Claim C5: explicit null in `updateTrip` -/

/-- C5. Evaluation of the code at the failing input: for a trip whose
stored description is `"old"`, `updateTrip(id, {description: null})`
leaves the description `"old"` in both variants (the returned trip and
the stored row keep it), because `updates.description ??
trip.description` treats an explicit `null` as nullish and falls back —
contrary to the claim that explicit null stores `null`. The name is
left unchanged, as the claim states. -/
theorem claim5_null_description_dropped :
    (updateTrip1 ⟨[⟨"t1", "A", some "old", "T0", "T0"⟩], []⟩ "t1"
        ⟨none, some none⟩ "T1").2 =
      some ⟨"t1", "A", some "old", "T0", "T1"⟩ ∧
    (updateTrip1 ⟨[⟨"t1", "A", some "old", "T0", "T0"⟩], []⟩ "t1"
        ⟨none, some none⟩ "T1").1 =
      ⟨[⟨"t1", "A", some "old", "T0", "T1"⟩], []⟩ ∧
    (updateTrip2 ⟨[⟨"t1", "A", some "old", "T0", "T0"⟩], []⟩ "t1"
        ⟨none, some none⟩ "T1").2 =
      some ⟨"t1", "A", some "old", "T0", "T1"⟩ := by
  decide

/-! ### Claim C10: `reorderStops` always returns true -/

theorem applyOrderUpdates_filter_other (tripId other : String) (hne : other ≠ tripId) :
    ∀ (n : Nat) (ids : List String) (stops : List StopRow),
      (applyOrderUpdates tripId n ids stops).filter (fun s => s.trip_id == other) =
        stops.filter (fun s => s.trip_id == other) := by
  intro n ids
  induction ids generalizing n with
  | nil => intro stops; rfl
  | cons sid rest ih =>
    intro stops
    rw [applyOrderUpdates, ih]
    rw [List.filter_map]
    have hpres : ∀ s ∈ stops,
        ((fun s => s.trip_id == other) ∘
          (fun s => if s.id = sid ∧ s.trip_id = tripId then { s with order := (n : Int) } else s)) s =
        (fun s => s.trip_id == other) s := by
      intro s _
      simp only [Function.comp]
      split <;> rfl
    rw [List.filter_congr hpres]
    have hid : List.map
        (fun s => if s.id = sid ∧ s.trip_id = tripId then { s with order := (n : Int) } else s)
        (stops.filter (fun s => s.trip_id == other)) =
        List.map id (stops.filter (fun s => s.trip_id == other)) := by
      apply List.map_congr_left
      intro s hsmem
      have hso : s.trip_id = other := by
        have := List.of_mem_filter hsmem
        simpa using this
      have hcond : ¬(s.id = sid ∧ s.trip_id = tripId) := by
        rintro ⟨-, h2⟩
        exact hne (by rw [← hso, h2])
      simp [hcond]
    rw [hid, List.map_id]

/-- C10. For every trip id and every list of stop ids — including the
empty list and ids matching no stop of the trip — `reorderStops` returns
`true`, so the boolean result never indicates whether a row changed;
and the stops of every other trip are left entirely unchanged. -/
theorem claim10_reorder_always_true (db : DbState) (tripId : String)
    (stopIds : List String) (now : String) :
    (reorderStops db tripId stopIds now).2 = true ∧
    ∀ other, other ≠ tripId →
      (reorderStops db tripId stopIds now).1.stops.filter (fun s => s.trip_id == other) =
        db.stops.filter (fun s => s.trip_id == other) := by
  refine ⟨rfl, ?_⟩
  intro other hne
  have hstops : (reorderStops db tripId stopIds now).1.stops =
      applyOrderUpdates tripId 0 stopIds db.stops := rfl
  rw [hstops]
  exact applyOrderUpdates_filter_other tripId other hne 0 stopIds db.stops

/-- Witness for C10: a trip with one stop of another trip present; the
call returns `true` on an id list that matches nothing, and trip `t2`'s
stop is untouched. -/
theorem claim10_witness :
    (reorderStops ⟨[], [⟨"s2", "t2", "N", "stop", none, 0, 0, none, none, 0,
        [], [], none, 0, none, none, none, none, none⟩]⟩
      "t1" ["nowhere"] "T1").2 = true ∧
    ∀ other, other ≠ "t1" →
      (reorderStops ⟨[], [⟨"s2", "t2", "N", "stop", none, 0, 0, none, none, 0,
          [], [], none, 0, none, none, none, none, none⟩]⟩
        "t1" ["nowhere"] "T1").1.stops.filter (fun s => s.trip_id == other) =
      (⟨[], [⟨"s2", "t2", "N", "stop", none, 0, 0, none, none, 0,
          [], [], none, 0, none, none, none, none, none⟩]⟩ : DbState).stops.filter
        (fun s => s.trip_id == other) :=
  claim10_reorder_always_true _ "t1" ["nowhere"] "T1"

/-! ### Claim C9: settings read endpoint masking -/

/-- C9 counterexample. The key `sk-ant-1` (8 characters) is accepted by
the settings write path, yet the read endpoint's preview for it is the
fixed string `***`, not the first 7 plus last 4 characters of the key —
so the claimed shape of the masked preview does not hold for every
stored key. -/
theorem claim9_counterexample :
    settingsPOST none ("sk-ant-1".toList) = (some ("sk-ant-1".toList), true) ∧
    settingsGET (some ("sk-ant-1".toList)) =
      { hasApiKey := true, keyPreview := some ("***".toList) } ∧
    "***".toList ≠
      ("sk-ant-1".toList.take 7 ++ "...".toList ++
        "sk-ant-1".toList.drop ("sk-ant-1".toList.length - 4)) := by
  decide

/-- C9 as amended. For every key accepted by the settings write path (a
trimmed value of at most 200 characters starting with `sk-ant-`), the
write stores it and the read endpoint returns only a presence flag and
a masked preview: the preview is the first 7 characters, an ellipsis,
and the last 4 characters when the key is longer than 15 characters,
and the fixed string `***` otherwise; in both cases the preview differs
from the stored plaintext, which is never returned. -/
theorem claim9_masked_preview (k : List Char)
    (hfmt : k.take 7 = "sk-ant-".toList) (hlen : k.length ≤ 200) :
    (∀ stored, settingsPOST stored k = (some k, true)) ∧
    settingsGET (some k) = { hasApiKey := true, keyPreview := some (maskApiKey k) } ∧
    maskApiKey k ≠ k ∧
    (15 < k.length →
      maskApiKey k = k.take 7 ++ "...".toList ++ k.drop (k.length - 4)) ∧
    (k.length ≤ 15 → maskApiKey k = "***".toList) := by
  have hk7 : k.length ≥ 7 := by
    have h := congrArg List.length hfmt
    rw [List.length_take] at h
    have h7 : ("sk-ant-".toList).length = 7 := by decide
    rw [h7] at h
    omega
  have hne : k ≠ [] := by
    intro h
    rw [h] at hk7
    simp at hk7
  refine ⟨?_, ?_, ?_, ?_, ?_⟩
  · intro stored
    simp only [settingsPOST]
    rw [if_neg (by omega), if_neg hne, if_pos hfmt]
  · simp only [settingsGET]
    rw [if_neg hne]
  · intro habs
    have hlen' := congrArg List.length habs
    by_cases hshort : k.length ≤ 15
    · simp only [maskApiKey, if_pos hshort] at hlen'
      have h3 : ("***".toList).length = 3 := by decide
      rw [h3] at hlen'
      omega
    · simp only [maskApiKey, if_neg hshort] at hlen'
      rw [List.length_append, List.length_append, List.length_take,
        List.length_drop] at hlen'
      have h3 : ("...".toList).length = 3 := by decide
      rw [h3] at hlen'
      omega
  · intro hlong
    simp only [maskApiKey]
    rw [if_neg (by omega)]
  · intro hshort
    simp only [maskApiKey, if_pos hshort]

/-- Witness for C9: a 22-character key in the accepted format; the
preview is its first 7 and last 4 characters around an ellipsis and is
not the plaintext. -/
theorem claim9_witness :
    (∀ stored, settingsPOST stored ("sk-ant-abcdefghijk1234".toList) =
      (some ("sk-ant-abcdefghijk1234".toList), true)) ∧
    settingsGET (some ("sk-ant-abcdefghijk1234".toList)) =
      { hasApiKey := true,
        keyPreview := some (maskApiKey ("sk-ant-abcdefghijk1234".toList)) } ∧
    maskApiKey ("sk-ant-abcdefghijk1234".toList) ≠ "sk-ant-abcdefghijk1234".toList ∧
    (15 < ("sk-ant-abcdefghijk1234".toList).length →
      maskApiKey ("sk-ant-abcdefghijk1234".toList) =
        "sk-ant-abcdefghijk1234".toList.take 7 ++ "...".toList ++
          "sk-ant-abcdefghijk1234".toList.drop
            (("sk-ant-abcdefghijk1234".toList).length - 4)) ∧
    (("sk-ant-abcdefghijk1234".toList).length ≤ 15 →
      maskApiKey ("sk-ant-abcdefghijk1234".toList) = "***".toList) :=
  claim9_masked_preview ("sk-ant-abcdefghijk1234".toList) (by decide) (by decide)

/-! ### Shared lemmas about the partial-patch helpers and re-reads -/

theorem getD_getD {α : Type} (o : Option α) (x : α) : o.getD (o.getD x) = o.getD x := by
  cases o <;> rfl

theorem updOpt_updOpt {α : Type} (o : Option α) (x : Option α) :
    updOpt o (updOpt o x) = updOpt o x := by
  cases o <;> rfl

theorem nullishDesc_idem (u : Option (Option String)) (x : Option String) :
    nullishDesc u (nullishDesc u x) = nullishDesc u x := by
  rcases u with - | (- | s) <;> rfl

theorem applyUpdatesRow_idem (u : UpdateStopRequest) (r : StopRow) :
    applyUpdatesRow u (applyUpdatesRow u r) = applyUpdatesRow u r := by
  simp only [applyUpdatesRow, getD_getD, updOpt_updOpt]

theorem rowToStop_applyUpdatesRow (u : UpdateStopRequest) (r : StopRow) :
    rowToStop (applyUpdatesRow u r) = applyUpdatesStop u (rowToStop r) := by
  cases ho : u.is_optional with
  | none => simp [rowToStop, applyUpdatesRow, applyUpdatesStop, ho]
  | some b => cases b <;> simp [rowToStop, applyUpdatesRow, applyUpdatesStop, ho]

theorem find?_map_pred {α : Type} (p : α → Bool) (g : α → α) (hg : ∀ a, p (g a) = p a)
    (l : List α) : (l.map g).find? p = (l.find? p).map g := by
  rw [List.find?_map]
  have hpg : (p ∘ g) = p := funext hg
  rw [hpg]

theorem getTripById_updateTripRows (db : DbState) (id name : String)
    (desc : Option String) (now : String) :
    getTripById (updateTripRows id name desc now db) id =
      (getTripById db id).map
        (fun t => { t with name := name, description := desc, updated_at := now }) := by
  unfold getTripById updateTripRows
  rw [find?_map_pred]
  · cases hf : db.trips.find? (fun t => t.id == id) with
    | none => rfl
    | some t =>
      have ht := List.find?_some hf
      simp only [Option.map]
      rw [if_pos ht]
  · intro t
    by_cases h : t.id == id
    · rw [if_pos h]
    · rw [if_neg h]

theorem getStopById_updateStopRows (db : DbState) (id : String) (u : UpdateStopRequest) :
    getStopById (updateStopRows id u db) id =
      (getStopById db id).map (applyUpdatesStop u) := by
  unfold getStopById updateStopRows
  rw [find?_map_pred]
  · cases hf : db.stops.find? (fun s => s.id == id) with
    | none => rfl
    | some r =>
      have ht := List.find?_some hf
      simp only [Option.map]
      rw [if_pos ht, rowToStop_applyUpdatesRow]
  · intro r
    by_cases h : r.id == id
    · rw [if_pos h]
      have : (applyUpdatesRow u r).id = r.id := rfl
      rw [this]
    · rw [if_neg h]

theorem touchTrip_stops (tripId now : String) (db : DbState) :
    (touchTrip tripId now db).stops = db.stops := rfl

theorem touchTrip_idem (tripId now : String) (db : DbState) :
    touchTrip tripId now (touchTrip tripId now db) = touchTrip tripId now db := by
  simp only [touchTrip, List.map_map]
  congr 1
  apply List.map_congr_left
  intro t _
  by_cases h : t.id == tripId
  · simp only [Function.comp, if_pos h]
  · simp only [Function.comp, if_neg h]

/-! ### Claim C6: empty updates and idempotence -/

theorem transactionTwo_committed (f g : DbState → DbState) (db : DbState) :
    (transactionRun [stmtOk f, stmtOk g] (⟨db, none⟩ : Engine DbState)).1.committed =
      g (f db) := rfl

theorem getStopById_touchTrip (tripId now : String) (db : DbState) (id : String) :
    getStopById (touchTrip tripId now db) id = getStopById db id := rfl

theorem applyUpdatesStop_trip_id (u : UpdateStopRequest) (s : Stop) :
    (applyUpdatesStop u s).trip_id = s.trip_id := rfl

theorem updateStopRows_touchTrip_comm (id : String) (u : UpdateStopRequest)
    (tripId now : String) (db : DbState) :
    updateStopRows id u (touchTrip tripId now db) =
      touchTrip tripId now (updateStopRows id u db) := rfl

theorem updateStopRows_idem (id : String) (u : UpdateStopRequest) (db : DbState) :
    updateStopRows id u (updateStopRows id u db) = updateStopRows id u db := by
  simp only [updateStopRows, List.map_map]
  congr 1
  apply List.map_congr_left
  intro r _
  by_cases h : r.id == id
  · have hid : (applyUpdatesRow u r).id = r.id := rfl
    simp only [Function.comp, if_pos h, hid, if_pos h, applyUpdatesRow_idem]
  · simp only [Function.comp, if_neg h]

theorem updateTripRows_idem (id name : String) (desc : Option String) (now : String)
    (db : DbState) :
    updateTripRows id name desc now (updateTripRows id name desc now db) =
      updateTripRows id name desc now db := by
  simp only [updateTripRows, List.map_map]
  congr 1
  apply List.map_congr_left
  intro t _
  by_cases h : t.id == id
  · simp only [Function.comp, if_pos h]
  · simp only [Function.comp, if_neg h]

theorem updateStop1_eq (db : DbState) (id : String) (u : UpdateStopRequest) (now : String) :
    updateStop1 db id u now =
      match getStopById db id with
      | none => (db, none)
      | some stop =>
        if isEmptyUpdate u then (db, some stop)
        else (touchTrip stop.trip_id now (updateStopRows id u db),
          getStopById (touchTrip stop.trip_id now (updateStopRows id u db)) id) := rfl

/-- C6 counterexample. An empty `updateTrip` patch does not return the
trip unchanged and does not leave the stored state unchanged: the
trip's `updated_at` is refreshed to the call's timestamp in both the
returned object and the stored row, because `updateTrip` has no
`fields.length === 0` early return. -/
theorem claim6_counterexample :
    (updateTrip1 ⟨[⟨"t1", "A", none, "T0", "T0"⟩], []⟩ "t1" ⟨none, none⟩ "T1").2 ≠
      some ⟨"t1", "A", none, "T0", "T0"⟩ ∧
    (updateTrip1 ⟨[⟨"t1", "A", none, "T0", "T0"⟩], []⟩ "t1" ⟨none, none⟩ "T1").1 ≠
      ⟨[⟨"t1", "A", none, "T0", "T0"⟩], []⟩ := by
  decide

theorem getTripById_after_update (db : DbState) (id : String) (trip : Trip)
    (hm : getTripById db id = some trip) (name : String) (desc : Option String)
    (now : String) :
    getTripById (updateTripRows id name desc now db) id =
      some { trip with name := name, description := desc, updated_at := now } := by
  rw [getTripById_updateTripRows, hm]
  rfl

/-- C6 as amended. `updateStop` with an empty set of fields returns the
stop unchanged and leaves the stored state unchanged; `updateTrip` with
an empty set of fields leaves the trip's name and description unchanged
but refreshes its `updated_at` to the call's timestamp, in both the
returned object and the stored row; and under a fixed timestamp both
`updateStop` and `updateTrip` are idempotent: repeating the call with
the same fields produces the same final state and result as one call. -/
theorem claim6_empty_update_idempotence :
    (∀ (db : DbState) (id : String) (u : UpdateStopRequest) (now : String),
      isEmptyUpdate u = true → updateStop1 db id u now = (db, getStopById db id)) ∧
    (∀ (db : DbState) (id : String) (now : String) (trip : Trip),
      getTripById db id = some trip →
        (updateTrip1 db id ⟨none, none⟩ now).2 = some { trip with updated_at := now } ∧
        (updateTrip1 db id ⟨none, none⟩ now).1 =
          updateTripRows id trip.name trip.description now db) ∧
    (∀ (db : DbState) (id : String) (u : UpdateStopRequest) (now : String),
      updateStop1 (updateStop1 db id u now).1 id u now = updateStop1 db id u now) ∧
    (∀ (db : DbState) (id : String) (u : UpdateTripRequest) (now : String),
      updateTrip1 (updateTrip1 db id u now).1 id u now = updateTrip1 db id u now) := by
  refine ⟨?_, ?_, ?_, ?_⟩
  · intro db id u now hempty
    rw [updateStop1_eq]
    cases hm : getStopById db id with
    | none => rfl
    | some stop => simp [hempty]
  · intro db id now trip hm
    have hname : (⟨none, none⟩ : UpdateTripRequest).name.getD trip.name = trip.name := rfl
    have hdesc : nullishDesc (⟨none, none⟩ : UpdateTripRequest).description
        trip.description = trip.description := rfl
    simp only [updateTrip1, hm, hname, hdesc]
    refine ⟨?_, ?_⟩
    · rw [getTripById_after_update db id trip hm]
    · trivial
  · intro db id u now
    rw [updateStop1_eq, updateStop1_eq]
    cases hm : getStopById db id with
    | none => simp [hm]
    | some stop =>
      by_cases he : isEmptyUpdate u
      · simp [hm, he]
      · have hread : getStopById
            (touchTrip stop.trip_id now (updateStopRows id u db)) id =
            some (applyUpdatesStop u stop) := by
          rw [getStopById_touchTrip, getStopById_updateStopRows, hm]
          rfl
        simp only [he, Bool.false_eq_true, if_false, hread]
        have htrip : (applyUpdatesStop u stop).trip_id = stop.trip_id := rfl
        simp only [htrip]
        have hdb : touchTrip stop.trip_id now
            (updateStopRows id u (touchTrip stop.trip_id now (updateStopRows id u db))) =
            touchTrip stop.trip_id now (updateStopRows id u db) := by
          rw [updateStopRows_touchTrip_comm, updateStopRows_idem, touchTrip_idem]
        rw [hdb, hread]
  · intro db id u now
    cases hm : getTripById db id with
    | none => simp [updateTrip1, hm]
    | some trip =>
      simp only [updateTrip1, hm]
      rw [getTripById_after_update db id trip hm]
      have hname2 : u.name.getD (u.name.getD trip.name) = u.name.getD trip.name :=
        getD_getD u.name trip.name
      have hdesc2 : nullishDesc u.description
          (nullishDesc u.description trip.description) =
          nullishDesc u.description trip.description :=
        nullishDesc_idem u.description trip.description
      simp only [hname2, hdesc2, updateTripRows_idem]
      rw [getTripById_after_update db id trip hm]

/-- Witness for C6: the amended statement instantiated at a concrete
empty stop update on an empty database, a concrete one-trip database
for the empty trip patch, and a concrete repeated name patch. -/
theorem claim6_witness :
    isEmptyUpdate ⟨none, none, none, none, none, none, none, none, none, none,
      none, none, none, none, none, none, none⟩ = true ∧
    updateStop1 ⟨[], []⟩ "s1"
      ⟨none, none, none, none, none, none, none, none, none, none, none, none,
        none, none, none, none, none⟩ "T1" =
      (⟨[], []⟩, getStopById ⟨[], []⟩ "s1") ∧
    getTripById ⟨[⟨"t1", "A", none, "T0", "T0"⟩], []⟩ "t1" =
      some ⟨"t1", "A", none, "T0", "T0"⟩ ∧
    (updateTrip1 ⟨[⟨"t1", "A", none, "T0", "T0"⟩], []⟩ "t1" ⟨none, none⟩ "T1").2 =
      some ⟨"t1", "A", none, "T0", "T1"⟩ ∧
    updateTrip1
        (updateTrip1 ⟨[⟨"t1", "A", none, "T0", "T0"⟩], []⟩ "t1"
          ⟨some "B", none⟩ "T1").1 "t1" ⟨some "B", none⟩ "T1" =
      updateTrip1 ⟨[⟨"t1", "A", none, "T0", "T0"⟩], []⟩ "t1" ⟨some "B", none⟩ "T1" :=
  ⟨by decide,
   claim6_empty_update_idempotence.1 ⟨[], []⟩ "s1"
     ⟨none, none, none, none, none, none, none, none, none, none, none, none,
       none, none, none, none, none⟩ "T1" (by decide),
   by decide,
   (claim6_empty_update_idempotence.2.1 ⟨[⟨"t1", "A", none, "T0", "T0"⟩], []⟩
     "t1" "T1" ⟨"t1", "A", none, "T0", "T0"⟩ (by decide)).1,
   claim6_empty_update_idempotence.2.2.2 ⟨[⟨"t1", "A", none, "T0", "T0"⟩], []⟩
     "t1" ⟨some "B", none⟩ "T1"⟩

/-! ### Claim C7: constructed objects equal re-queried rows -/

theorem createStop_committed (row : StopRow) (tripId now : String) (db : DbState) :
    (transactionRun (createStopWork row tripId now)
      (⟨db, none⟩ : Engine DbState)).1.committed =
      touchTrip tripId now (insertStopRow row db) := rfl

theorem rowToStop_buildStopRow (id tripId : String) (data : CreateStopRequest)
    (ord : Int) :
    rowToStop (buildStopRow id tripId data ord) = constructedStop id tripId data ord := by
  cases ho : data.is_optional with
  | none => simp [rowToStop, buildStopRow, constructedStop, ho]
  | some b => cases b <;> simp [rowToStop, buildStopRow, constructedStop, ho]

theorem find?_id_append_fresh {α : Type} (proj : α → String) (l : List α) (row : α)
    (id : String) (hrow : proj row = id) (hfresh : id ∉ l.map proj) :
    (l ++ [row]).find? (fun x => proj x == id) = some row := by
  rw [List.find?_append]
  have h1 : l.find? (fun x => proj x == id) = none := by
    rw [List.find?_eq_none]
    intro x hx hbeq
    exact hfresh (List.mem_map.mpr ⟨x, hx, by simpa using hbeq⟩)
  rw [h1]
  simp [List.find?, hrow]

/-- C7. For every successful mutation, the object the constructed-object
variant returns equals, field for field, the object the re-querying
variant reads back after the same statements, and the resulting
database states coincide; for the creates this holds whenever the
freshly generated id does not collide with an existing row (which the
UUID generator guarantees). -/
theorem claim7_constructed_equals_requeried :
    (∀ (db : DbState) (id name : String) (desc : Option String) (now : String),
      id ∉ db.trips.map Trip.id →
        createTrip1 db id name desc now =
          ((createTrip2 db id name desc now).1, some (createTrip2 db id name desc now).2)) ∧
    (∀ (db : DbState) (id : String) (u : UpdateTripRequest) (now : String),
      updateTrip1 db id u now = updateTrip2 db id u now) ∧
    (∀ (db : DbState) (id tripId : String) (data : CreateStopRequest) (now : String),
      id ∉ db.stops.map StopRow.id →
        createStop1 db id tripId data now =
          ((createStop2 db id tripId data now).1, some (createStop2 db id tripId data now).2)) ∧
    (∀ (db : DbState) (id : String) (u : UpdateStopRequest) (now : String),
      updateStop1 db id u now = updateStop2 db id u now) := by
  refine ⟨?_, ?_, ?_, ?_⟩
  · intro db id name desc now hfresh
    simp only [createTrip1, createTrip2]
    congr 1
    unfold getTripById
    exact find?_id_append_fresh Trip.id db.trips _ id rfl hfresh
  · intro db id u now
    cases hm : getTripById db id with
    | none => simp only [updateTrip1, updateTrip2, hm]
    | some trip =>
      simp only [updateTrip1, updateTrip2, hm]
      rw [getTripById_after_update db id trip hm]
  · intro db id tripId data now hfresh
    simp only [createStop1, createStop2]
    congr 1
    rw [createStop_committed, getStopById_touchTrip]
    unfold getStopById insertStopRow
    have hfind : (db.stops ++
        [buildStopRow id tripId data (data.order.getD (getNextOrder db tripId))]).find?
          (fun s => s.id == id) =
        some (buildStopRow id tripId data (data.order.getD (getNextOrder db tripId))) :=
      find?_id_append_fresh StopRow.id db.stops _ id rfl hfresh
    simp only at hfind ⊢
    rw [hfind]
    simp only [Option.map]
    rw [rowToStop_buildStopRow]
  · intro db id u now
    cases hm : getStopById db id with
    | none => simp only [updateStop1, updateStop2, hm]
    | some stop =>
      simp only [updateStop1, updateStop2, hm]
      by_cases he : isEmptyUpdate u
      · simp [he]
      · simp only [he, Bool.false_eq_true, if_false]
        congr 1
        rw [transactionTwo_committed, getStopById_touchTrip,
          getStopById_updateStopRows, hm]
        rfl

/-- Witness for C7: the four equivalences instantiated at concrete inputs
on small databases, with the freshness hypotheses discharged by
computation. -/
theorem claim7_witness :
    ("t1" ∉ ((⟨[], []⟩ : DbState)).trips.map Trip.id) ∧
    createTrip1 ⟨[], []⟩ "t1" "A" none "T0" =
      ((createTrip2 ⟨[], []⟩ "t1" "A" none "T0").1,
        some (createTrip2 ⟨[], []⟩ "t1" "A" none "T0").2) ∧
    updateTrip1 ⟨[⟨"t1", "A", none, "T0", "T0"⟩], []⟩ "t1" ⟨some "B", none⟩ "T1" =
      updateTrip2 ⟨[⟨"t1", "A", none, "T0", "T0"⟩], []⟩ "t1" ⟨some "B", none⟩ "T1" ∧
    createStop1 ⟨[⟨"t1", "A", none, "T0", "T0"⟩], []⟩ "s1" "t1"
        ⟨"N", "stop", none, 1, 2, none, none, none, none, none, none, none,
          none, none, none, none, none⟩ "T1" =
      ((createStop2 ⟨[⟨"t1", "A", none, "T0", "T0"⟩], []⟩ "s1" "t1"
          ⟨"N", "stop", none, 1, 2, none, none, none, none, none, none, none,
            none, none, none, none, none⟩ "T1").1,
        some (createStop2 ⟨[⟨"t1", "A", none, "T0", "T0"⟩], []⟩ "s1" "t1"
          ⟨"N", "stop", none, 1, 2, none, none, none, none, none, none, none,
            none, none, none, none, none⟩ "T1").2) ∧
    updateStop1 ⟨[], []⟩ "s1"
        ⟨some "M", none, none, none, none, none, none, none, none, none, none,
          none, none, none, none, none, none⟩ "T1" =
      updateStop2 ⟨[], []⟩ "s1"
        ⟨some "M", none, none, none, none, none, none, none, none, none, none,
          none, none, none, none, none, none⟩ "T1" :=
  ⟨by decide,
   claim7_constructed_equals_requeried.1 ⟨[], []⟩ "t1" "A" none "T0" (by decide),
   claim7_constructed_equals_requeried.2.1 ⟨[⟨"t1", "A", none, "T0", "T0"⟩], []⟩
     "t1" ⟨some "B", none⟩ "T1",
   claim7_constructed_equals_requeried.2.2.1 ⟨[⟨"t1", "A", none, "T0", "T0"⟩], []⟩
     "s1" "t1"
     ⟨"N", "stop", none, 1, 2, none, none, none, none, none, none, none,
       none, none, none, none, none⟩ "T1" (by decide),
   claim7_constructed_equals_requeried.2.2.2 ⟨[], []⟩ "s1"
     ⟨some "M", none, none, none, none, none, none, none, none, none, none,
       none, none, none, none, none, none⟩ "T1"⟩

/-! ### Claim C3: auto-assigned order and create-stop atomicity -/

theorem foldl_max_spec : ∀ (xs : List Int) (x : Int),
    x ≤ xs.foldl max x ∧ (xs.foldl max x = x ∨ xs.foldl max x ∈ xs) ∧
      ∀ o ∈ xs, o ≤ xs.foldl max x := by
  intro xs
  induction xs with
  | nil => intro x; refine ⟨le_refl x, Or.inl rfl, ?_⟩; intro o ho; simp at ho
  | cons y ys ih =>
    intro x
    simp only [List.foldl_cons]
    obtain ⟨h1, h2, h3⟩ := ih (max x y)
    refine ⟨le_trans (le_max_left x y) h1, ?_, ?_⟩
    · rcases h2 with h2 | h2
      · rcases max_choice x y with hc | hc
        · exact Or.inl (h2.trans hc)
        · exact Or.inr (by rw [h2, hc]; exact List.mem_cons_self y ys)
      · exact Or.inr (List.mem_cons_of_mem y h2)
    · intro o ho
      rcases List.mem_cons.mp ho with rfl | ho
      · exact le_trans (le_max_right x o) h1
      · exact h3 o ho

/-- C3. When `data.order` is not supplied, `createStop` assigns the
maximum existing order among the trip's stops plus one (0 when the trip
has no stops): the returned stop carries that order, the committed
state contains both the inserted row and the parent trip's refreshed
`updated_at` (the two statements run in one transaction), and if the
trip-timestamp statement fails the committed state is exactly the
original database — neither effect commits. The freshness hypothesis
models the generated UUID not colliding with an existing row id. -/
theorem claim3_create_stop_order_atomicity (db : DbState) (tripId id : String)
    (data : CreateStopRequest) (now : String)
    (hord : data.order = none) (hfresh : id ∉ db.stops.map StopRow.id) :
    (tripOrders db tripId = [] → getNextOrder db tripId = 0) ∧
    (tripOrders db tripId ≠ [] → ∃ m, m ∈ tripOrders db tripId ∧
      (∀ o ∈ tripOrders db tripId, o ≤ m) ∧ getNextOrder db tripId = m + 1) ∧
    (createStop1 db id tripId data now).2 =
      some (constructedStop id tripId data (getNextOrder db tripId)) ∧
    (createStop1 db id tripId data now).1 =
      touchTrip tripId now (insertStopRow
        (buildStopRow id tripId data (getNextOrder db tripId)) db) ∧
    (∀ errMsg : String,
      (transactionRun
        [stmtOk (insertStopRow (buildStopRow id tripId data (getNextOrder db tripId))),
          fun _ => .error errMsg]
        (⟨db, none⟩ : Engine DbState)).1.committed = db) := by
  refine ⟨?_, ?_, ?_, ?_, ?_⟩
  · intro h
    simp [getNextOrder, h, listMaxInt]
  · intro h
    cases ho : tripOrders db tripId with
    | nil => exact absurd ho h
    | cons x xs =>
      obtain ⟨h1, h2, h3⟩ := foldl_max_spec xs x
      refine ⟨xs.foldl max x, ?_, ?_, ?_⟩
      · rcases h2 with h2 | h2
        · rw [h2]; exact List.mem_cons_self x xs
        · exact List.mem_cons_of_mem x h2
      · intro o hmem
        rcases List.mem_cons.mp hmem with rfl | hmem
        · exact h1
        · exact h3 o hmem
      · simp [getNextOrder, ho, listMaxInt]
  · simp only [createStop1, hord, Option.getD_none]
    rw [createStop_committed, getStopById_touchTrip]
    unfold getStopById insertStopRow
    have hfind : (db.stops ++
        [buildStopRow id tripId data (getNextOrder db tripId)]).find?
          (fun s => s.id == id) =
        some (buildStopRow id tripId data (getNextOrder db tripId)) :=
      find?_id_append_fresh StopRow.id db.stops _ id rfl hfresh
    simp only at hfind ⊢
    rw [hfind]
    simp only [Option.map]
    rw [rowToStop_buildStopRow]
  · simp only [createStop1, hord, Option.getD_none]
    rw [createStop_committed]
  · intro errMsg
    rfl

/-- Witness for C3: a trip with stops of order 0 and 5; the next stop
created without an explicit order gets order 6, both statements commit,
and an injected failure of the trip-touch statement leaves the database
exactly as it was. -/
theorem claim3_witness :
    ((⟨"c", "stop", none, 0, 0, none, none, none, none, none, none, none,
        none, none, none, none, none⟩ : CreateStopRequest).order = none) ∧
    ("s3" ∉ ((⟨[⟨"t1", "A", none, "T0", "T0"⟩],
      [⟨"s1", "t1", "a", "stop", none, 0, 0, none, none, 0, [], [], none, 0,
        none, none, none, none, none⟩,
       ⟨"s2", "t1", "b", "stop", none, 0, 0, none, none, 0, [], [], none, 5,
        none, none, none, none, none⟩]⟩ : DbState)).stops.map StopRow.id) ∧
    (tripOrders ⟨[⟨"t1", "A", none, "T0", "T0"⟩],
      [⟨"s1", "t1", "a", "stop", none, 0, 0, none, none, 0, [], [], none, 0,
        none, none, none, none, none⟩,
       ⟨"s2", "t1", "b", "stop", none, 0, 0, none, none, 0, [], [], none, 5,
        none, none, none, none, none⟩]⟩ "t1" ≠ [] →
      ∃ m, m ∈ tripOrders ⟨[⟨"t1", "A", none, "T0", "T0"⟩],
        [⟨"s1", "t1", "a", "stop", none, 0, 0, none, none, 0, [], [], none, 0,
          none, none, none, none, none⟩,
         ⟨"s2", "t1", "b", "stop", none, 0, 0, none, none, 0, [], [], none, 5,
          none, none, none, none, none⟩]⟩ "t1" ∧
        (∀ o ∈ tripOrders ⟨[⟨"t1", "A", none, "T0", "T0"⟩],
          [⟨"s1", "t1", "a", "stop", none, 0, 0, none, none, 0, [], [], none, 0,
            none, none, none, none, none⟩,
           ⟨"s2", "t1", "b", "stop", none, 0, 0, none, none, 0, [], [], none, 5,
            none, none, none, none, none⟩]⟩ "t1", o ≤ m) ∧
        getNextOrder ⟨[⟨"t1", "A", none, "T0", "T0"⟩],
          [⟨"s1", "t1", "a", "stop", none, 0, 0, none, none, 0, [], [], none, 0,
            none, none, none, none, none⟩,
           ⟨"s2", "t1", "b", "stop", none, 0, 0, none, none, 0, [], [], none, 5,
            none, none, none, none, none⟩]⟩ "t1" = m + 1) ∧
    getNextOrder ⟨[⟨"t1", "A", none, "T0", "T0"⟩],
      [⟨"s1", "t1", "a", "stop", none, 0, 0, none, none, 0, [], [], none, 0,
        none, none, none, none, none⟩,
       ⟨"s2", "t1", "b", "stop", none, 0, 0, none, none, 0, [], [], none, 5,
        none, none, none, none, none⟩]⟩ "t1" = 6 :=
  ⟨rfl, by decide,
   (claim3_create_stop_order_atomicity
     ⟨[⟨"t1", "A", none, "T0", "T0"⟩],
      [⟨"s1", "t1", "a", "stop", none, 0, 0, none, none, 0, [], [], none, 0,
        none, none, none, none, none⟩,
       ⟨"s2", "t1", "b", "stop", none, 0, 0, none, none, 0, [], [], none, 5,
        none, none, none, none, none⟩]⟩ "t1" "s3"
     ⟨"c", "stop", none, 0, 0, none, none, none, none, none, none, none,
       none, none, none, none, none⟩ "T1" rfl (by decide)).2.1,
   by decide⟩

/-! ### Claim C4: chat loop termination and exit values -/

theorem cons_getLast?_some (b : String) (l : List String) :
    ∃ a, (b :: l).getLast? = some a := by
  induction l generalizing b with
  | nil => exact ⟨b, rfl⟩
  | cons c l ih =>
    rw [List.getLast?_cons_cons]
    exact ih c

theorem getLast?_cons_getD (l : List String) (t fr : String) :
    ((t :: l).getLast?).getD fr = (l.getLast?).getD t := by
  cases l with
  | nil => rfl
  | cons b l' =>
    rw [List.getLast?_cons_cons]
    obtain ⟨a, ha⟩ := cons_getLast?_some b l'
    rw [ha]
    rfl

theorem processBlocks_spec (bs : List ContentBlock) (fr : String) :
    processBlocks bs fr = (((textsOf bs).getLast?).getD fr, hasToolUseIn bs) := by
  suffices h : ∀ (bs : List ContentBlock) (fr : String) (b0 : Bool),
      bs.foldl (fun acc b => match b with
        | ContentBlock.text t => (t, acc.2)
        | ContentBlock.toolUse => (acc.1, true)) (fr, b0) =
        (((textsOf bs).getLast?).getD fr, b0 || hasToolUseIn bs) by
    have h0 := h bs fr false
    simpa [processBlocks] using h0
  intro bs
  induction bs with
  | nil => intro fr b0; simp [textsOf, hasToolUseIn]
  | cons b rest ih =>
    intro fr b0
    cases b with
    | text t =>
      simp only [List.foldl_cons]
      rw [ih t b0]
      have ht : textsOf (ContentBlock.text t :: rest) = t :: textsOf rest := rfl
      have hh : hasToolUseIn (ContentBlock.text t :: rest) = hasToolUseIn rest := by
        simp [hasToolUseIn]
      rw [ht, hh, getLast?_cons_getD]
    | toolUse =>
      simp only [List.foldl_cons]
      rw [ih fr true]
      have ht : textsOf (ContentBlock.toolUse :: rest) = textsOf rest := rfl
      have hh : hasToolUseIn (ContentBlock.toolUse :: rest) = true := by
        simp [hasToolUseIn]
      rw [ht, hh]
      simp

theorem chatLoopFuel_agrees :
    ∀ (fuel : Nat) (responses : Nat → List ContentBlock) (k : Nat)
      (messages : List ChatTurn) (fr : String),
      1 ≤ fuel → 22 ≤ messages.length + 2 * fuel →
      chatLoopFuel fuel responses k messages fr =
        some (chatLoop responses k messages fr) := by
  intro fuel
  induction fuel with
  | zero =>
    intro _ _ _ _ h1 _
    omega
  | succ f ih =>
    intro responses k messages fr h1 h2
    rw [chatLoop]
    simp only [chatLoopFuel]
    by_cases hs : (processBlocks (responses k) fr).2
    · simp only [hs, if_true]
      by_cases hl : (messages ++ [ChatTurn.assistant, ChatTurn.user]).length > 20
      · simp only [hl, if_true]
      · simp only [hl, if_false]
        have hlen : (messages ++ [ChatTurn.assistant, ChatTurn.user]).length =
            messages.length + 2 := by
          simp
        rw [hlen] at hl
        apply ih
        · omega
        · rw [hlen]
          omega
    · simp only [Bool.not_eq_true] at hs
      simp only [hs, Bool.false_eq_true, if_false]

/-- C4. The assistant chat loop terminates for every sequence of model
responses: the fuel-bounded rendition with 12 model calls always
reaches the loop's own exit (so at most 12 calls ever occur, whatever
the incoming history length). A response with no tool-use block ends
the loop immediately with that response's text as the final answer (its
last text block, or the previously observed `finalResponse` if it has
none); and when a tool-use response pushes the history beyond the hard
cap of 20 total messages, the loop exits with whatever `finalResponse`
was last observed — which is the empty string when no text block was
ever produced, as the final conjunct's concrete run shows. -/
theorem claim4_chat_loop_termination :
    (∀ (responses : Nat → List ContentBlock) (k : Nat) (messages : List ChatTurn)
      (fr : String),
      chatLoopFuel 12 responses k messages fr =
        some (chatLoop responses k messages fr)) ∧
    (∀ (responses : Nat → List ContentBlock) (k : Nat) (messages : List ChatTurn)
      (fr : String),
      hasToolUseIn (responses k) = false →
        chatLoop responses k messages fr = ((textsOf (responses k)).getLast?).getD fr) ∧
    (∀ (responses : Nat → List ContentBlock) (k : Nat) (messages : List ChatTurn)
      (fr t : String),
      hasToolUseIn (responses k) = false → textsOf (responses k) = [t] →
        chatLoop responses k messages fr = t) ∧
    (∀ (responses : Nat → List ContentBlock) (k : Nat) (messages : List ChatTurn)
      (fr : String),
      hasToolUseIn (responses k) = true → messages.length + 2 > 20 →
        chatLoop responses k messages fr = ((textsOf (responses k)).getLast?).getD fr) ∧
    chatLoop (fun _ => [ContentBlock.toolUse]) 0 (List.replicate 19 ChatTurn.user) "" = "" := by
  have hexit2 : ∀ (responses : Nat → List ContentBlock) (k : Nat)
      (messages : List ChatTurn) (fr : String),
      hasToolUseIn (responses k) = false →
        chatLoop responses k messages fr = ((textsOf (responses k)).getLast?).getD fr := by
    intro responses k messages fr h
    rw [chatLoop, processBlocks_spec]
    simp [h]
  refine ⟨?_, hexit2, ?_, ?_, ?_⟩
  · intro responses k messages fr
    apply chatLoopFuel_agrees 12 responses k messages fr (by omega)
    omega
  · intro responses k messages fr t h ht
    rw [hexit2 responses k messages fr h, ht]
    rfl
  · intro responses k messages fr h hcap
    rw [chatLoop, processBlocks_spec]
    simp only [h, if_true]
    have hlen : (messages ++ [ChatTurn.assistant, ChatTurn.user]).length =
        messages.length + 2 := by simp
    rw [if_pos]
    omega
  · rw [chatLoop, processBlocks_spec]
    have h1 : hasToolUseIn [ContentBlock.toolUse] = true := rfl
    have h2 : ((textsOf [ContentBlock.toolUse]).getLast?).getD "" = "" := rfl
    rw [h1, h2]
    simp

/-- Witness for C4: a model that immediately answers `done` with no
tool use; the fueled loop agrees with the loop, and the loop returns
`done`. -/
theorem claim4_witness :
    chatLoopFuel 12 (fun _ => [ContentBlock.text "done"]) 0 [] "" =
      some (chatLoop (fun _ => [ContentBlock.text "done"]) 0 [] "") ∧
    hasToolUseIn [ContentBlock.text "done"] = false ∧
    textsOf [ContentBlock.text "done"] = ["done"] ∧
    chatLoop (fun _ => [ContentBlock.text "done"]) 0 [] "" = "done" :=
  ⟨claim4_chat_loop_termination.1 (fun _ => [ContentBlock.text "done"]) 0 [] "",
   by decide, by decide,
   claim4_chat_loop_termination.2.2.1 (fun _ => [ContentBlock.text "done"]) 0 [] ""
     "done" (by decide) (by decide)⟩

/-! ### Claim C1: the reorder invariant -/

/-- Index of an id in a list (semantics of "the loop iteration whose
`stopIds[i]` equals this id"; with a duplicate-free list it is the
unique such index). -/
def idxOfId (sid : String) : List String → Nat
  | [] => 0
  | x :: xs => if x = sid then 0 else idxOfId sid xs + 1

theorem idxOfId_getElem (ids : List String) (hnd : ids.Nodup) (i : Nat)
    (h : i < ids.length) : idxOfId ids[i] ids = i := by
  induction ids generalizing i with
  | nil => simp at h
  | cons x xs ih =>
    rw [List.nodup_cons] at hnd
    cases i with
    | zero => simp [idxOfId]
    | succ j =>
      have hj : j < xs.length := by simpa using h
      have hget : (x :: xs)[j + 1] = xs[j] := by simp
      rw [hget]
      have hne : x ≠ xs[j] := by
        intro he
        exact hnd.1 (he ▸ List.getElem_mem hj)
      simp only [idxOfId, if_neg hne]
      rw [ih hnd.2 j hj]

/-- Net effect of the remaining order-update statements starting at
index `n`, on a single row: a row of the trip whose id occurs in the
remaining id list receives `n` plus the id's index. -/
def reassignFrom (tripId : String) (n : Nat) (ids : List String) (s : StopRow) : StopRow :=
  if s.trip_id = tripId ∧ s.id ∈ ids then
    { s with order := ((n + idxOfId s.id ids : Nat) : Int) }
  else s

theorem reassignFrom_trip_id (tripId : String) (n : Nat) (ids : List String)
    (s : StopRow) : (reassignFrom tripId n ids s).trip_id = s.trip_id := by
  simp only [reassignFrom]
  split <;> rfl

theorem applyOrderUpdates_eq_map (tripId : String) :
    ∀ (ids : List String), ids.Nodup → ∀ (n : Nat) (stops : List StopRow),
      applyOrderUpdates tripId n ids stops = stops.map (reassignFrom tripId n ids) := by
  intro ids
  induction ids with
  | nil =>
    intro _ n stops
    have h : stops.map (reassignFrom tripId n []) = List.map id stops := by
      apply List.map_congr_left
      intro s _
      simp [reassignFrom]
    rw [h, List.map_id]
    rfl
  | cons sid rest ih =>
    intro hnd n stops
    rw [List.nodup_cons] at hnd
    rw [applyOrderUpdates, ih hnd.2 (n + 1), List.map_map]
    apply List.map_congr_left
    intro s _
    simp only [Function.comp]
    by_cases h1 : s.id = sid ∧ s.trip_id = tripId
    · rw [if_pos h1]
      have hsid : s.id = sid := h1.1
      have hnotin : s.id ∉ rest := by rw [hsid]; exact hnd.1
      have hc1 : ¬(({ s with order := (n : Int) } : StopRow).trip_id = tripId ∧
          ({ s with order := (n : Int) } : StopRow).id ∈ rest) := by
        rintro ⟨-, hmem⟩
        exact hnotin hmem
      have hc2 : s.trip_id = tripId ∧ s.id ∈ sid :: rest :=
        ⟨h1.2, by rw [hsid]; exact List.mem_cons_self sid rest⟩
      rw [reassignFrom, if_neg hc1, reassignFrom, if_pos hc2]
      have hidx : idxOfId s.id (sid :: rest) = 0 := by
        simp [idxOfId, hsid]
      rw [hidx]
      simp
    · rw [if_neg h1]
      by_cases h2 : s.trip_id = tripId
      · by_cases h3 : s.id ∈ rest
        · have hne : sid ≠ s.id := by
            intro he
            exact h1 ⟨he.symm, h2⟩
          have hc2 : s.trip_id = tripId ∧ s.id ∈ sid :: rest :=
            ⟨h2, List.mem_cons_of_mem sid h3⟩
          rw [reassignFrom, if_pos ⟨h2, h3⟩, reassignFrom, if_pos hc2]
          have hidx : idxOfId s.id (sid :: rest) = idxOfId s.id rest + 1 := by
            simp [idxOfId, hne]
          rw [hidx]
          rw [show n + 1 + idxOfId s.id rest = n + (idxOfId s.id rest + 1) from by omega]
        · have hnm : s.id ∉ sid :: rest := by
            intro hmem
            rcases List.mem_cons.mp hmem with he | he
            · exact h1 ⟨he, h2⟩
            · exact h3 he
          rw [reassignFrom, if_neg (fun hc => h3 hc.2), reassignFrom,
            if_neg (fun hc => hnm hc.2)]
      · rw [reassignFrom, if_neg (fun hc => h2 hc.1), reassignFrom,
          if_neg (fun hc => h2 hc.1)]

/-- First row with the given id (semantics of `SELECT * FROM stops WHERE
id = $1` against a list of rows), defaulted for totality. -/
def lookupStop (l : List StopRow) (sid : String) : StopRow :=
  (l.find? (fun s => s.id == sid)).getD default

theorem lookupStop_of_mem (l : List StopRow) (hnd : (l.map StopRow.id).Nodup)
    (s : StopRow) (hs : s ∈ l) : lookupStop l s.id = s := by
  induction l with
  | nil => simp at hs
  | cons a rest ih =>
    rw [List.map_cons, List.nodup_cons] at hnd
    rcases List.mem_cons.mp hs with rfl | hs'
    · unfold lookupStop
      rw [List.find?_cons_of_pos _ (by simp)]
      rfl
    · have hne : a.id ≠ s.id := by
        intro he
        exact hnd.1 (he ▸ List.mem_map.mpr ⟨s, hs', rfl⟩)
      unfold lookupStop
      rw [List.find?_cons_of_neg _ (by simpa using hne)]
      exact ih hnd.2 hs'

/-- C1. For every trip with N stops, after `reorderStops(tripId,
stopIds)` is called with `stopIds` a permutation of all N existing stop
ids of that trip (row ids being unique, as the primary key guarantees),
reading the stops back via `getStopsByTripId` yields the stops in the
supplied sequence — the read-back id list is exactly `stopIds` — with
order values exactly `0..N-1`: the stop at position `i` (the one whose
id is `stopIds[i]`) has order `i`. -/
theorem claim1_reorder_order_invariant (db : DbState) (tripId : String)
    (stopIds : List String) (now : String)
    (hids : (db.stops.map StopRow.id).Nodup)
    (hperm : stopIds.Perm
      ((db.stops.filter (fun s => s.trip_id == tripId)).map StopRow.id)) :
    (getStopsByTripId (reorderStops db tripId stopIds now).1 tripId).map Stop.id =
      stopIds ∧
    (getStopsByTripId (reorderStops db tripId stopIds now).1 tripId).map Stop.order =
      (List.range stopIds.length).map Int.ofNat := by
  have hlnd : ((db.stops.filter (fun s => s.trip_id == tripId)).map StopRow.id).Nodup :=
    ((List.filter_sublist db.stops).map StopRow.id).nodup hids
  have hsnd : stopIds.Nodup := hperm.symm.nodup hlnd
  have hstops : (reorderStops db tripId stopIds now).1.stops =
      db.stops.map (reassignFrom tripId 0 stopIds) :=
    applyOrderUpdates_eq_map tripId stopIds hsnd 0 db.stops
  have hfilter : (db.stops.map (reassignFrom tripId 0 stopIds)).filter
      (fun s => s.trip_id == tripId) =
      (db.stops.filter (fun s => s.trip_id == tripId)).map
        (reassignFrom tripId 0 stopIds) := by
    rw [List.filter_map]
    congr 1
    apply List.filter_congr
    intro s _
    simp [Function.comp, reassignFrom_trip_id]
  have hmem_ids : ∀ s ∈ db.stops.filter (fun s => s.trip_id == tripId),
      s.id ∈ stopIds := by
    intro s hs
    exact (hperm.mem_iff).mpr (List.mem_map.mpr ⟨s, hs, rfl⟩)
  have hRG : ∀ s ∈ db.stops.filter (fun s => s.trip_id == tripId),
      reassignFrom tripId 0 stopIds s =
        { s with order := ((idxOfId s.id stopIds : Nat) : Int) } := by
    intro s hs
    have h2 : s.trip_id = tripId := by simpa using List.of_mem_filter hs
    rw [reassignFrom, if_pos ⟨h2, hmem_ids s hs⟩]
    rw [show 0 + idxOfId s.id stopIds = idxOfId s.id stopIds from by omega]
  have hmapG : (db.stops.filter (fun s => s.trip_id == tripId)).map
      (reassignFrom tripId 0 stopIds) =
      (db.stops.filter (fun s => s.trip_id == tripId)).map
        (fun s => { s with order := ((idxOfId s.id stopIds : Nat) : Int) }) :=
    List.map_congr_left hRG
  set l' := (db.stops.filter (fun s => s.trip_id == tripId)).map
    (fun s => { s with order := ((idxOfId s.id stopIds : Nat) : Int) }) with hl'
  have hid' : l'.map StopRow.id =
      (db.stops.filter (fun s => s.trip_id == tripId)).map StopRow.id := by
    rw [hl', List.map_map]
    rfl
  have hl'nd : (l'.map StopRow.id).Nodup := by rw [hid']; exact hlnd
  have hperm2 : stopIds.Perm (l'.map StopRow.id) := by rw [hid']; exact hperm
  have hmemOrd : ∀ s' ∈ l', s'.order = ((idxOfId s'.id stopIds : Nat) : Int) := by
    intro s' hs'
    obtain ⟨s, hs, rfl⟩ := List.mem_map.mp hs'
    rfl
  set t : List StopRow := stopIds.map (lookupStop l') with ht
  have htperm : t.Perm l' := by
    have h1 : t.Perm ((l'.map StopRow.id).map (lookupStop l')) := hperm2.map _
    have h2 : (l'.map StopRow.id).map (lookupStop l') = l' := by
      rw [List.map_map]
      have h3 : ∀ s ∈ l', (lookupStop l' ∘ StopRow.id) s = id s := by
        intro s hs
        simp only [Function.comp, id]
        exact lookupStop_of_mem l' hl'nd s hs
      rw [List.map_congr_left h3, List.map_id]
    rw [h2] at h1
    exact h1
  have htlen : t.length = stopIds.length := by simp [ht]
  have htelem : ∀ (i : Nat) (hi : i < t.length) (hi2 : i < stopIds.length),
      t[i].id = stopIds[i] ∧ t[i].order = (i : Int) := by
    intro i hi hi2
    have ht_i : t[i] = lookupStop l' stopIds[i] := by
      simp [ht]
    have hmem : stopIds[i] ∈ l'.map StopRow.id :=
      (hperm2.mem_iff).mp (List.getElem_mem hi2)
    obtain ⟨s, hsmem, hsid⟩ := List.mem_map.mp hmem
    have hlook : lookupStop l' stopIds[i] = s := by
      rw [← hsid]
      exact lookupStop_of_mem l' hl'nd s hsmem
    rw [ht_i, hlook]
    refine ⟨hsid, ?_⟩
    rw [hmemOrd s hsmem, hsid, idxOfId_getElem stopIds hsnd i hi2]
  have htsorted : List.Pairwise (fun a b : StopRow => a.order < b.order) t := by
    rw [List.pairwise_iff_get]
    intro i j hij
    rw [List.get_eq_getElem, List.get_eq_getElem]
    have hi2 : (i : Nat) < stopIds.length := by rw [← htlen]; exact i.isLt
    have hj2 : (j : Nat) < stopIds.length := by rw [← htlen]; exact j.isLt
    rw [(htelem i.1 i.isLt hi2).2, (htelem j.1 j.isLt hj2).2]
    exact_mod_cast hij
  have hgs : getStopsByTripId (reorderStops db tripId stopIds now).1 tripId =
      (sortedByOrder l').map rowToStop := by
    unfold getStopsByTripId
    have hbase : (reorderStops db tripId stopIds now).1.stops.filter
        (fun s => s.trip_id == tripId) = l' := by
      rw [hstops, hfilter, hmapG]
    rw [hbase]
  have hm_perm : (sortedByOrder l').Perm l' := List.mergeSort_perm l' _
  have hmt : (sortedByOrder l').Perm t := hm_perm.trans htperm.symm
  have hm_le : List.Pairwise
      (fun a b : StopRow => (decide (a.order ≤ b.order)) = true) (sortedByOrder l') := by
    apply List.sorted_mergeSort
    · intro a b c h1 h2
      simp only [decide_eq_true_eq] at h1 h2 ⊢
      omega
    · intro a b
      rcases le_total a.order b.order with h | h <;> simp [h]
  have hordnodup : ((sortedByOrder l').map StopRow.order).Nodup := by
    have htord : t.map StopRow.order =
        (List.range stopIds.length).map Int.ofNat := by
      apply List.ext_getElem
      · simp [htlen]
      · intro n h1 h2
        have hn1 : n < t.length := by simpa using h1
        have hn2 : n < stopIds.length := by rw [← htlen]; exact hn1
        simp only [List.getElem_map, List.getElem_range]
        exact (htelem n hn1 hn2).2
    have htnodup : (t.map StopRow.order).Nodup := by
      rw [htord]
      exact List.Nodup.map (fun a b h => Int.ofNat.inj h) (List.nodup_range _)
    exact ((hmt.map StopRow.order).symm).nodup htnodup
  have hm_lt : List.Pairwise (fun a b : StopRow => a.order < b.order)
      (sortedByOrder l') := by
    have hne : List.Pairwise (fun a b : StopRow => a.order ≠ b.order)
        (sortedByOrder l') := List.pairwise_map.mp hordnodup
    have hle : List.Pairwise (fun a b : StopRow => a.order ≤ b.order)
        (sortedByOrder l') := hm_le.imp (fun h => by
          simpa [decide_eq_true_eq] using h)
    exact (hle.and hne).imp (fun h => lt_of_le_of_ne h.1 h.2)
  have hsort_eq : sortedByOrder l' = t := by
    haveI : IsAntisymm StopRow (fun a b => a.order < b.order) :=
      ⟨fun a b h1 h2 => absurd (lt_trans h1 h2) (lt_irrefl _)⟩
    exact List.eq_of_perm_of_sorted hmt hm_lt htsorted
  rw [hgs, hsort_eq]
  constructor
  · rw [List.map_map]
    apply List.ext_getElem
    · rw [List.length_map, htlen]
    · intro n h1 h2
      have hn1 : n < t.length := by rw [List.length_map] at h1; exact h1
      simp only [List.getElem_map, Function.comp]
      exact (htelem n hn1 h2).1
  · rw [List.map_map]
    apply List.ext_getElem
    · rw [List.length_map, htlen, List.length_map, List.length_range]
    · intro n h1 h2
      have hn1 : n < t.length := by rw [List.length_map] at h1; exact h1
      have hn2 : n < stopIds.length := by rw [← htlen]; exact hn1
      simp only [List.getElem_map, List.getElem_range, Function.comp]
      exact (htelem n hn1 hn2).2

/-- Witness for C1: a trip with three stops `a`, `b`, `c` (orders 0, 1,
2), reordered by the id permutation `[c, a, b]`; reading back returns
the ids in exactly that sequence with orders 0, 1, 2. -/
theorem claim1_witness :
    (((⟨[⟨"t1", "Trip", none, "T0", "T0"⟩],
      [⟨"a", "t1", "first", "stop", none, 0, 0, none, none, 0, [], [], none, 0,
        none, none, none, none, none⟩,
       ⟨"b", "t1", "second", "stop", none, 0, 0, none, none, 0, [], [], none, 1,
        none, none, none, none, none⟩,
       ⟨"c", "t1", "third", "stop", none, 0, 0, none, none, 0, [], [], none, 2,
        none, none, none, none, none⟩]⟩ : DbState)).stops.map StopRow.id).Nodup ∧
    (getStopsByTripId (reorderStops (⟨[⟨"t1", "Trip", none, "T0", "T0"⟩],
      [⟨"a", "t1", "first", "stop", none, 0, 0, none, none, 0, [], [], none, 0,
        none, none, none, none, none⟩,
       ⟨"b", "t1", "second", "stop", none, 0, 0, none, none, 0, [], [], none, 1,
        none, none, none, none, none⟩,
       ⟨"c", "t1", "third", "stop", none, 0, 0, none, none, 0, [], [], none, 2,
        none, none, none, none, none⟩]⟩ : DbState) "t1" ["c", "a", "b"] "T1").1
      "t1").map Stop.id = ["c", "a", "b"] ∧
    (getStopsByTripId (reorderStops (⟨[⟨"t1", "Trip", none, "T0", "T0"⟩],
      [⟨"a", "t1", "first", "stop", none, 0, 0, none, none, 0, [], [], none, 0,
        none, none, none, none, none⟩,
       ⟨"b", "t1", "second", "stop", none, 0, 0, none, none, 0, [], [], none, 1,
        none, none, none, none, none⟩,
       ⟨"c", "t1", "third", "stop", none, 0, 0, none, none, 0, [], [], none, 2,
        none, none, none, none, none⟩]⟩ : DbState) "t1" ["c", "a", "b"] "T1").1
      "t1").map Stop.order =
      (List.range (["c", "a", "b"] : List String).length).map Int.ofNat :=
  ⟨by decide,
   (claim1_reorder_order_invariant (⟨[⟨"t1", "Trip", none, "T0", "T0"⟩],
      [⟨"a", "t1", "first", "stop", none, 0, 0, none, none, 0, [], [], none, 0,
        none, none, none, none, none⟩,
       ⟨"b", "t1", "second", "stop", none, 0, 0, none, none, 0, [], [], none, 1,
        none, none, none, none, none⟩,
       ⟨"c", "t1", "third", "stop", none, 0, 0, none, none, 0, [], [], none, 2,
        none, none, none, none, none⟩]⟩ : DbState) "t1" ["c", "a", "b"] "T1"
     (by decide) (by decide)).1,
   (claim1_reorder_order_invariant (⟨[⟨"t1", "Trip", none, "T0", "T0"⟩],
      [⟨"a", "t1", "first", "stop", none, 0, 0, none, none, 0, [], [], none, 0,
        none, none, none, none, none⟩,
       ⟨"b", "t1", "second", "stop", none, 0, 0, none, none, 0, [], [], none, 1,
        none, none, none, none, none⟩,
       ⟨"c", "t1", "third", "stop", none, 0, 0, none, none, 0, [], [], none, 2,
        none, none, none, none, none⟩]⟩ : DbState) "t1" ["c", "a", "b"] "T1"
     (by decide) (by decide)).2⟩
